import Mathlib

/-!
Shallow embedding of the concept2drive workout log codec
(src/native.rs, src/workouts.rs, src/drive.rs) and proofs about it.

Streams are modelled as lists of natural numbers (bytes). A fallible
Rust computation over a stream is a state-passing function returning a
`RustOutcome` together with the remaining stream. The four outcomes
mirror the ways a Rust decode can end:

* `ok`         - the `Ok` value of a `Result`;
* `parseError` - `Err(ParserError)` raised by validation (src/error.rs);
* `ioError`    - `Err(std::io::Error)` from reading past the end of a stream;
* `panicked`   - an abort of the thread, carrying the standard message
  of the aborting construct: `todo` macros abort with
  "not yet implemented", `unreachable` with
  "internal error: entered unreachable code", integer division by zero
  with "attempt to divide by zero", and the chrono constructors
  `NaiveDate::from_ymd` / `NaiveTime::from_hms_milli` with
  "invalid or out-of-range date" / "invalid time".
-/

inductive RustOutcome (α : Type) where
  | ok (val : α)
  | parseError
  | ioError
  | panicked (msg : String)
  deriving DecidableEq, Repr

/-- A fallible Rust computation reading from a byte stream. -/
def RdSt (α : Type) : Type := List Nat → RustOutcome α × List Nat

instance : Monad RdSt where
  pure a := fun s => (RustOutcome.ok a, s)
  bind m f := fun s =>
    match m s with
    | (RustOutcome.ok a, s1) => f a s1
    | (RustOutcome.parseError, s1) => (RustOutcome.parseError, s1)
    | (RustOutcome.ioError, s1) => (RustOutcome.ioError, s1)
    | (RustOutcome.panicked msg, s1) => (RustOutcome.panicked msg, s1)

/-- `return Err(ParserError::default())`. -/
def throwParse {α : Type} : RdSt α := fun s => (RustOutcome.parseError, s)

/-- Lift a pure fallible result into the stream monad. -/
def liftOutcome {α : Type} (o : RustOutcome α) : RdSt α := fun s => (o, s)

/-- `read_u8`. -/
def readU8 : RdSt Nat
  | [] => (RustOutcome.ioError, [])
  | b :: rest => (RustOutcome.ok b, rest)

/-- `read_u16::<LittleEndian>`. -/
def readU16LE : RdSt Nat
  | b0 :: b1 :: rest => (RustOutcome.ok (b0 + b1 * 256), rest)
  | s => (RustOutcome.ioError, s.drop 2)

/-- `read_u16::<BigEndian>`. -/
def readU16BE : RdSt Nat
  | b0 :: b1 :: rest => (RustOutcome.ok (b0 * 256 + b1), rest)
  | s => (RustOutcome.ioError, s.drop 2)

/-- `read_u32::<BigEndian>`. -/
def readU32BE : RdSt Nat
  | b0 :: b1 :: b2 :: b3 :: rest =>
      (RustOutcome.ok (((b0 * 256 + b1) * 256 + b2) * 256 + b3), rest)
  | s => (RustOutcome.ioError, s.drop 4)

/-- `read_exact` into a buffer of `n` bytes. -/
def readExact (n : Nat) : RdSt (List Nat) := fun s =>
  (if n ≤ s.length then RustOutcome.ok (s.take n) else RustOutcome.ioError, s.drop n)

/-! ## Timestamp codec (src/native.rs, `decode_timestamp`) -/

/-- Calendar date-time produced by `chrono::NaiveDate::and_time`;
only the components this codec sets are modelled (seconds and
milliseconds are always zero). -/
structure NaiveDateTime where
  year : Nat
  month : Nat
  day : Nat
  hour : Nat
  minute : Nat
  deriving DecidableEq, Repr

/-- Gregorian leap year test, as used by chrono. -/
def isLeapYear (y : Nat) : Bool :=
  y % 4 = 0 && (y % 100 ≠ 0 || y % 400 = 0)

/-- Number of days of month `m` in year `y` (chrono calendar rules). -/
def daysInMonth (y m : Nat) : Nat :=
  if m = 2 then (if isLeapYear y then 29 else 28)
  else if m = 4 ∨ m = 6 ∨ m = 9 ∨ m = 11 then 30
  else 31

/-- Validity domain of `chrono::NaiveDate::from_ymd`; outside of it the
constructor aborts. The chrono year range check is omitted because every
year this codec can produce (2000 to 2127) lies far inside it. -/
def chronoDateValid (y m d : Nat) : Prop :=
  1 ≤ m ∧ m ≤ 12 ∧ 1 ≤ d ∧ d ≤ daysInMonth y m

instance (y m d : Nat) : Decidable (chronoDateValid y m d) := by
  unfold chronoDateValid; infer_instance

/-- Validity domain of `chrono::NaiveTime::from_hms_milli` with zero
seconds and milliseconds; outside of it the constructor aborts. -/
def chronoTimeValid (h mi : Nat) : Prop :=
  h < 24 ∧ mi < 60

instance (h mi : Nat) : Decidable (chronoTimeValid h mi) := by
  unfold chronoTimeValid; infer_instance

/-- `decode_timestamp` (src/native.rs lines 342-353). The chrono
constructors used by the source abort on out-of-range values instead of
returning an error, which the `panicked` outcome records. -/
def decode_timestamp (timestamp : Nat) : RustOutcome NaiveDateTime :=
  let year := 2000 + ((timestamp &&& (127 <<< 25)) >>> 25)
  let day := (timestamp &&& (31 <<< 20)) >>> 20
  let month := (timestamp &&& (15 <<< 16)) >>> 16
  let hour := (timestamp &&& (255 <<< 8)) >>> 8
  let minute := timestamp &&& 127
  if chronoDateValid year month day then
    if chronoTimeValid hour minute then
      RustOutcome.ok { year := year, month := month, day := day,
                       hour := hour, minute := minute }
    else RustOutcome.panicked "invalid time"
  else RustOutcome.panicked "invalid or out-of-range date"

/-! ## Workout model (src/workouts.rs) -/

/-- `std::time::Duration`, tracked in milliseconds (the only component
the codec uses). -/
structure Duration where
  millis : Nat
  deriving DecidableEq, Repr

def Duration.from_millis (m : Nat) : Duration := { millis := m }

/-- `WorkoutType` (src/workouts.rs lines 12-20). -/
inductive WorkoutType where
  | FreeRow
  | SingleDistance
  | SingleTime
  | TimeInterval
  | DistanceInterval
  | VariableInterval
  | SingleCalorie
  deriving DecidableEq, Repr

/-- `TryFrom<u8> for WorkoutType` (src/workouts.rs lines 22-37). -/
def WorkoutType.tryFrom (value : Nat) : RustOutcome WorkoutType :=
  match value with
  | 1 => RustOutcome.ok WorkoutType.FreeRow
  | 3 => RustOutcome.ok WorkoutType.SingleDistance
  | 5 => RustOutcome.ok WorkoutType.SingleTime
  | 6 => RustOutcome.ok WorkoutType.TimeInterval
  | 7 => RustOutcome.ok WorkoutType.DistanceInterval
  | 8 => RustOutcome.ok WorkoutType.VariableInterval
  | 10 => RustOutcome.ok WorkoutType.SingleCalorie
  | _ => RustOutcome.parseError

/-- `WorkoutFrame` (src/workouts.rs lines 120-128). -/
structure WorkoutFrame where
  distance : Nat
  work_duration : Duration
  rest_duration : Option Duration
  spm : Nat
  work_heart_rate : Option Nat
  rest_heart_rate : Option Nat
  deriving DecidableEq, Repr

/-- `Workout` (src/workouts.rs lines 53-68). -/
structure Workout where
  workout_type : WorkoutType
  serial_number : Nat
  datetime : NaiveDateTime
  user_id : Nat
  record_id : Nat
  total_distance : Nat
  total_work_duration : Duration
  total_rest_duration : Option Duration
  spm : Option Nat
  frames : List WorkoutFrame
  deriving DecidableEq, Repr

/-- `Workout::heart_rate` (src/workouts.rs lines 89-101). The source
sums the heart rates with `.sum::<u32>()` and divides by
`self.frames.len() as u32`; both operations are 32-bit, so the sum and
the length are reduced modulo 2^32 (release-build two-complement
wrap-around semantics). The `unwrap` of each heart rate is guarded by
the preceding `any` check and is rendered with `Option.getD`. -/
def Workout.heart_rate (w : Workout) : Option Nat :=
  if w.frames.length = 0 then none
  else if w.frames.any (fun f => f.work_heart_rate.isNone) then none
  else some
    (((w.frames.map (fun f => f.work_heart_rate.getD 0)).sum % 4294967296)
      / (w.frames.length % 4294967296))

/-! ## Storage records (src/native.rs) -/

/-- `SingleFrame` (src/native.rs lines 291-297). -/
structure SingleFrame where
  duration_or_distance : Nat
  heart_rate : Nat
  spm : Nat
  unknown : List Nat
  deriving DecidableEq, Repr

/-- `SingleFrame::read` (src/native.rs lines 299-316). -/
def SingleFrame.read : RdSt SingleFrame := do
  let duration_or_distance ← readU16BE
  let heart_rate ← readU8
  let spm ← readU8
  let unknown ← readExact 28
  pure { duration_or_distance := duration_or_distance, heart_rate := heart_rate,
         spm := spm, unknown := unknown }

/-- `Into<WorkoutFrame> for SingleFrame` (src/native.rs lines 318-331). -/
def SingleFrame.intoFrame (f : SingleFrame) : WorkoutFrame :=
  { distance := f.duration_or_distance,
    work_duration := Duration.from_millis (f.duration_or_distance * 100),
    rest_duration := none,
    spm := f.spm,
    work_heart_rate := if 0 < f.heart_rate then some f.heart_rate else none,
    rest_heart_rate := none }

/-- `SingleEntry` (src/native.rs lines 116-134). -/
structure SingleEntry where
  magic : Nat
  workout_type : WorkoutType
  unknown_1 : List Nat
  serial_number : Nat
  timestamp : Nat
  user_id : Nat
  unknown_2 : List Nat
  record_id : Nat
  magic_2 : List Nat
  total_duration : Nat
  total_distance : Nat
  spm : Nat
  split_info : Nat
  split_size : Nat
  unknown_3 : List Nat
  frames : List SingleFrame
  deriving DecidableEq, Repr

/-- The `num_frames` computation of `SingleEntry::read` (src/native.rs
lines 156-168). For distance-based workouts the source divides by
`split_size` with no zero guard: Rust u32 division aborts on a zero
divisor. The time and calorie arms are `todo` aborts and the catch-all
arm is an `unreachable` abort. -/
def SingleEntry.numFrames (workout_type : WorkoutType)
    (total_distance split_size : Nat) : RustOutcome Nat :=
  match workout_type with
  | WorkoutType.FreeRow | WorkoutType.SingleDistance =>
      if split_size = 0 then RustOutcome.panicked "attempt to divide by zero"
      else RustOutcome.ok (total_distance / split_size +
        if 0 < total_distance % split_size then 1 else 0)
  | WorkoutType.SingleTime => RustOutcome.panicked "not yet implemented"
  | WorkoutType.SingleCalorie => RustOutcome.panicked "not yet implemented"
  | _ => RustOutcome.panicked "internal error: entered unreachable code"

/-- The frame-reading loop of `SingleEntry::read` (src/native.rs lines
170-174): frames are read in order and pushed onto the vector. -/
def readFrames : Nat → RdSt (List SingleFrame)
  | 0 => pure []
  | n + 1 => do
      let f ← SingleFrame.read
      let fs ← readFrames n
      pure (f :: fs)

/-- `SingleEntry::read` (src/native.rs lines 136-194). -/
def SingleEntry.read (magic : Nat) (workout_type : WorkoutType) :
    RdSt SingleEntry := do
  let unknown_1 ← readExact 2
  let serial_number ← readU32BE
  let timestamp ← readU32BE
  let user_id ← readU16BE
  let unknown_2 ← readExact 4
  let record_id ← readU8
  let magic_2 ← readExact 3
  let total_duration ← readU16BE
  let total_distance ← readU32BE
  let spm ← readU8
  let split_info ← readU8
  let split_size ← readU16BE
  let unknown_3 ← readExact 18
  let num_frames ← liftOutcome
    (SingleEntry.numFrames workout_type total_distance split_size)
  let frames ← readFrames num_frames
  pure { magic := magic, workout_type := workout_type, unknown_1 := unknown_1,
         serial_number := serial_number, timestamp := timestamp,
         user_id := user_id, unknown_2 := unknown_2, record_id := record_id,
         magic_2 := magic_2, total_duration := total_duration,
         total_distance := total_distance, spm := spm,
         split_info := split_info, split_size := split_size,
         unknown_3 := unknown_3, frames := frames }

/-- The per-frame mutation of `Into<Workout> for SingleEntry`
(src/native.rs lines 201-214): distance-based types overwrite the frame
distance with the split size; the time and calorie arms are `todo`
aborts and the catch-all arm is an `unreachable` abort. -/
def frameOverride (workout_type : WorkoutType) (split_size : Nat)
    (f : WorkoutFrame) : RustOutcome WorkoutFrame :=
  match workout_type with
  | WorkoutType.FreeRow | WorkoutType.SingleDistance =>
      RustOutcome.ok { f with distance := split_size }
  | WorkoutType.SingleTime => RustOutcome.panicked "not yet implemented"
  | WorkoutType.SingleCalorie => RustOutcome.panicked "not yet implemented"
  | _ => RustOutcome.panicked "internal error: entered unreachable code"

/-- The frame loop of `Into<Workout> for SingleEntry`: the first
aborting frame aborts the conversion. -/
def overrideFrames (workout_type : WorkoutType) (split_size : Nat) :
    List WorkoutFrame → RustOutcome (List WorkoutFrame)
  | [] => RustOutcome.ok []
  | f :: fs =>
      match frameOverride workout_type split_size f with
      | RustOutcome.ok g =>
          (match overrideFrames workout_type split_size fs with
           | RustOutcome.ok gs => RustOutcome.ok (g :: gs)
           | RustOutcome.parseError => RustOutcome.parseError
           | RustOutcome.ioError => RustOutcome.ioError
           | RustOutcome.panicked m => RustOutcome.panicked m)
      | RustOutcome.parseError => RustOutcome.parseError
      | RustOutcome.ioError => RustOutcome.ioError
      | RustOutcome.panicked m => RustOutcome.panicked m

/-- `Into<Workout> for SingleEntry` (src/native.rs lines 197-229). -/
def SingleEntry.intoWorkout (e : SingleEntry) : RustOutcome Workout :=
  match overrideFrames e.workout_type e.split_size
      (e.frames.map SingleFrame.intoFrame) with
  | RustOutcome.ok frames =>
      (match decode_timestamp e.timestamp with
       | RustOutcome.ok dt =>
           RustOutcome.ok
             { workout_type := e.workout_type, serial_number := e.serial_number,
               datetime := dt, user_id := e.user_id, record_id := e.record_id,
               total_distance := e.total_distance,
               total_work_duration := Duration.from_millis (e.total_duration * 100),
               total_rest_duration := none, spm := some e.spm,
               frames := frames }
       | RustOutcome.parseError => RustOutcome.parseError
       | RustOutcome.ioError => RustOutcome.ioError
       | RustOutcome.panicked m => RustOutcome.panicked m)
  | RustOutcome.parseError => RustOutcome.parseError
  | RustOutcome.ioError => RustOutcome.ioError
  | RustOutcome.panicked m => RustOutcome.panicked m

/-- `FixedIntervalFrame` (src/native.rs lines 333-335, no fields). -/
structure FixedIntervalFrame where
  deriving DecidableEq, Repr

/-- `FixedIntervalEntry` (src/native.rs lines 231-248). Never
constructed: its reader is unimplemented. -/
structure FixedIntervalEntry where
  magic : Nat
  workout_type : WorkoutType
  unknown_1 : List Nat
  serial_number : Nat
  timestamp : Nat
  user_id : Nat
  unknown_2 : List Nat
  record_id : Nat
  num_splits : Nat
  split_size : Nat
  interval_rest_time : Nat
  total_work_duration : Nat
  total_rest_distance : Nat
  unknown_3 : List Nat
  frames : List FixedIntervalFrame
  deriving DecidableEq, Repr

/-- `FixedIntervalEntry::read` (src/native.rs lines 250-253): the body
is a `todo` abort. -/
def FixedIntervalEntry.read (magic : Nat) (workout_type : WorkoutType) :
    RdSt FixedIntervalEntry :=
  fun s => (RustOutcome.panicked "not yet implemented", s)

/-- `Into<Workout> for FixedIntervalEntry` (src/native.rs lines
256-260): a `todo` abort. -/
def FixedIntervalEntry.intoWorkout (e : FixedIntervalEntry) :
    RustOutcome Workout :=
  RustOutcome.panicked "not yet implemented"

/-- `VariableIntervalFrame` (src/native.rs lines 337-339, no fields). -/
structure VariableIntervalFrame where
  deriving DecidableEq, Repr

/-- `VariableIntervalEntry` (src/native.rs lines 262-277). Never
constructed: its reader is unimplemented. -/
structure VariableIntervalEntry where
  magic : Nat
  workout_type : WorkoutType
  unknown_1 : List Nat
  serial_number : Nat
  timestamp : Nat
  user_id : Nat
  unknown_2 : List Nat
  record_id : Nat
  num_splits : Nat
  total_work_duration : Nat
  total_work_distance : Nat
  unknown_3 : List Nat
  frames : List VariableIntervalFrame
  deriving DecidableEq, Repr

/-- `VariableIntervalEntry::read` (src/native.rs lines 279-283): the
body is a `todo` abort. -/
def VariableIntervalEntry.read (magic : Nat) (workout_type : WorkoutType) :
    RdSt VariableIntervalEntry :=
  fun s => (RustOutcome.panicked "not yet implemented", s)

/-- `Into<Workout> for VariableIntervalEntry` (src/native.rs lines
285-289): a `todo` abort. -/
def VariableIntervalEntry.intoWorkout (e : VariableIntervalEntry) :
    RustOutcome Workout :=
  RustOutcome.panicked "not yet implemented"

/-- `LogDataStorageEntry` (src/native.rs lines 77-82). -/
inductive LogDataStorageEntry where
  | Single (entry : SingleEntry)
  | FixedInterval (entry : FixedIntervalEntry)
  | VariableInterval (entry : VariableIntervalEntry)
  deriving DecidableEq, Repr

/-- `LogDataStorageEntry::read` (src/native.rs lines 84-104). -/
def LogDataStorageEntry.read : RdSt LogDataStorageEntry := do
  let magic ← readU8
  let workout_type ← readU8
  match workout_type with
  | 1 | 3 | 5 | 10 => do
      let wt ← liftOutcome (WorkoutType.tryFrom workout_type)
      let entry ← SingleEntry.read magic wt
      pure (LogDataStorageEntry.Single entry)
  | 6 | 7 => do
      let wt ← liftOutcome (WorkoutType.tryFrom workout_type)
      let entry ← FixedIntervalEntry.read magic wt
      pure (LogDataStorageEntry.FixedInterval entry)
  | 8 => do
      let wt ← liftOutcome (WorkoutType.tryFrom workout_type)
      let entry ← VariableIntervalEntry.read magic wt
      pure (LogDataStorageEntry.VariableInterval entry)
  | _ => throwParse

/-- `Into<Workout> for LogDataStorageEntry` (src/native.rs lines
106-114). -/
def LogDataStorageEntry.intoWorkout : LogDataStorageEntry → RustOutcome Workout
  | LogDataStorageEntry.Single e => e.intoWorkout
  | LogDataStorageEntry.FixedInterval e => e.intoWorkout
  | LogDataStorageEntry.VariableInterval e => e.intoWorkout

/-! ## Access table (src/native.rs lines 14-75, src/drive.rs lines 119-146) -/

/-- `LogDataAccessTableEntry` (src/native.rs lines 14-30). -/
structure LogDataAccessTableEntry where
  magic : Nat
  workout_type : Nat
  interval_rest_time : Nat
  workout_name : List Nat
  unknown_1 : List Nat
  timestamp : Nat
  unknown_2 : List Nat
  num_splits : Nat
  duration_or_distance : Nat
  record_offset : Nat
  unknown_3 : List Nat
  record_size : Nat
  index : Nat
  unknown_4 : List Nat
  deriving DecidableEq, Repr

/-- `LogDataAccessTableEntry::read` (src/native.rs lines 32-75): all
fields are read first (32 bytes in total), then the magic byte is
validated. -/
def LogDataAccessTableEntry.read : RdSt LogDataAccessTableEntry := do
  let magic ← readU8
  let workout_type ← readU8
  let interval_rest_time ← readU16LE
  let workout_name ← readExact 2
  let unknown_1 ← readExact 2
  let timestamp ← readU16BE
  let unknown_2 ← readExact 2
  let num_splits ← readU16LE
  let duration_or_distance ← readU16LE
  let record_offset ← readU16LE
  let unknown_3 ← readExact 6
  let record_size ← readU16LE
  let index ← readU16LE
  let unknown_4 ← readExact 4
  if magic ≠ 240 ∧ magic ≠ 255 ∧ magic ≠ 112 then
    throwParse
  else
    pure { magic := magic, workout_type := workout_type,
           interval_rest_time := interval_rest_time,
           workout_name := workout_name, unknown_1 := unknown_1,
           timestamp := timestamp, unknown_2 := unknown_2,
           num_splits := num_splits,
           duration_or_distance := duration_or_distance,
           record_offset := record_offset, unknown_3 := unknown_3,
           record_size := record_size, index := index,
           unknown_4 := unknown_4 }

/-- Serialization of an access table entry, inverse of
`LogDataAccessTableEntry.read` on well-formed entries; used to state
theorems about whole index streams. -/
def LogDataAccessTableEntry.encode (e : LogDataAccessTableEntry) : List Nat :=
  [e.magic, e.workout_type] ++
  [e.interval_rest_time % 256, e.interval_rest_time / 256] ++
  e.workout_name ++ e.unknown_1 ++
  [e.timestamp / 256, e.timestamp % 256] ++
  e.unknown_2 ++
  [e.num_splits % 256, e.num_splits / 256] ++
  [e.duration_or_distance % 256, e.duration_or_distance / 256] ++
  [e.record_offset % 256, e.record_offset / 256] ++
  e.unknown_3 ++
  [e.record_size % 256, e.record_size / 256] ++
  [e.index % 256, e.index / 256] ++
  e.unknown_4

/-- Well-formedness of an access table entry: field values fit the
machine-integer widths of the Rust struct and the opaque byte arrays
have their declared lengths. -/
def LogDataAccessTableEntry.wf (e : LogDataAccessTableEntry) : Prop :=
  e.magic < 256 ∧ e.workout_type < 256 ∧
  e.interval_rest_time < 65536 ∧ e.workout_name.length = 2 ∧
  e.unknown_1.length = 2 ∧ e.timestamp < 65536 ∧
  e.unknown_2.length = 2 ∧ e.num_splits < 65536 ∧
  e.duration_or_distance < 65536 ∧ e.record_offset < 65536 ∧
  e.unknown_3.length = 6 ∧ e.record_size < 65536 ∧
  e.index < 65536 ∧ e.unknown_4.length = 4

instance (e : LogDataAccessTableEntry) : Decidable e.wf := by
  unfold LogDataAccessTableEntry.wf; infer_instance

/-- The access table scan loop of `Drive::workouts` (src/drive.rs lines
124-133): read entries until one with magic 0xFF or 0x70 appears (that
entry is dropped), collecting the others in stream order. The source
loop is unbounded; here it recurses on a fuel argument. -/
def scanAccessTableAux : Nat → List Nat →
    RustOutcome (List LogDataAccessTableEntry) × List Nat
  | 0, s => (RustOutcome.ioError, s)
  | fuel + 1, s =>
      match LogDataAccessTableEntry.read s with
      | (RustOutcome.ok e, s1) =>
          if e.magic = 255 ∨ e.magic = 112 then (RustOutcome.ok [], s1)
          else
            (match scanAccessTableAux fuel s1 with
             | (RustOutcome.ok es, s2) => (RustOutcome.ok (e :: es), s2)
             | r => r)
      | (RustOutcome.parseError, s1) => (RustOutcome.parseError, s1)
      | (RustOutcome.ioError, s1) => (RustOutcome.ioError, s1)
      | (RustOutcome.panicked m, s1) => (RustOutcome.panicked m, s1)

/-- The access table scan of `Drive::workouts`. A fuel of one plus the
stream length is always enough, because every loop iteration that does
not stop the loop consumes 32 bytes of the stream; the fuel-exhaustion
outcome is therefore unreachable. -/
def scanAccessTable (s : List Nat) :
    RustOutcome (List LogDataAccessTableEntry) × List Nat :=
  scanAccessTableAux (s.length + 1) s

/-- One iteration of the decode loop of `Drive::workouts` (src/drive.rs
lines 137-143): seek the payload stream to the absolute offset
`record_offset` (a seek beyond the end succeeds and later reads fail),
decode one storage record there and convert it. -/
def decodeWorkout (payload : List Nat) (at_entry : LogDataAccessTableEntry) :
    RustOutcome Workout :=
  match (LogDataStorageEntry.read (payload.drop at_entry.record_offset)).1 with
  | RustOutcome.ok rec => rec.intoWorkout
  | RustOutcome.parseError => RustOutcome.parseError
  | RustOutcome.ioError => RustOutcome.ioError
  | RustOutcome.panicked m => RustOutcome.panicked m

/-- The decode loop of `Drive::workouts`: each access table entry is
decoded in order; the first failure aborts the loop. -/
def processEntries (payload : List Nat) :
    List LogDataAccessTableEntry → RustOutcome (List Workout)
  | [] => RustOutcome.ok []
  | e :: es =>
      match decodeWorkout payload e with
      | RustOutcome.ok w =>
          (match processEntries payload es with
           | RustOutcome.ok ws => RustOutcome.ok (w :: ws)
           | RustOutcome.parseError => RustOutcome.parseError
           | RustOutcome.ioError => RustOutcome.ioError
           | RustOutcome.panicked m => RustOutcome.panicked m)
      | RustOutcome.parseError => RustOutcome.parseError
      | RustOutcome.ioError => RustOutcome.ioError
      | RustOutcome.panicked m => RustOutcome.panicked m

/-- `Drive::workouts` (src/drive.rs lines 119-146), over the two
streams the filesystem collaborator supplies: the index stream
(LogDataAccessTbl.bin) and the payload stream (LogDataStorage.bin). -/
def Drive.workouts (idx payload : List Nat) : RustOutcome (List Workout) :=
  match (scanAccessTable idx).1 with
  | RustOutcome.ok entries => processEntries payload entries
  | RustOutcome.parseError => RustOutcome.parseError
  | RustOutcome.ioError => RustOutcome.ioError
  | RustOutcome.panicked m => RustOutcome.panicked m

/-! ## Auxiliary predicates and concrete values used in the proofs -/

/-- A stream computation that can never end in an abort. -/
def NoPanic {α : Type} (m : RdSt α) : Prop :=
  ∀ s msg s', m s ≠ (RustOutcome.panicked msg, s')

/-- An all-zero 32-byte single frame. -/
def zeroFrame : SingleFrame :=
  { duration_or_distance := 0, heart_rate := 0, spm := 0,
    unknown := List.replicate 28 0 }

/-- A concrete Single FreeRow record body: total_distance 2, split_size
1, hence two trailing frames; 48 header bytes plus 64 frame bytes. -/
def c3Stream : List Nat :=
  List.replicate 25 0 ++ [2, 0, 0, 0, 1] ++ List.replicate 82 0

/-- The entry `SingleEntry.read 149 FreeRow` decodes from `c3Stream`. -/
def c3Entry : SingleEntry :=
  { magic := 149, workout_type := WorkoutType.FreeRow, unknown_1 := [0, 0],
    serial_number := 0, timestamp := 0, user_id := 0,
    unknown_2 := [0, 0, 0, 0], record_id := 0, magic_2 := [0, 0, 0],
    total_duration := 0, total_distance := 2, spm := 0, split_info := 0,
    split_size := 1, unknown_3 := List.replicate 18 0,
    frames := [zeroFrame, zeroFrame] }

/-- A concrete valid access table entry (magic 0xF0). -/
def w2Entry : LogDataAccessTableEntry :=
  { magic := 240, workout_type := 1, interval_rest_time := 0,
    workout_name := [0, 0], unknown_1 := [0, 0], timestamp := 0,
    unknown_2 := [0, 0], num_splits := 0, duration_or_distance := 0,
    record_offset := 0, unknown_3 := [0, 0, 0, 0, 0, 0], record_size := 0,
    index := 0, unknown_4 := [0, 0, 0, 0] }

/-- A concrete access table terminator entry (magic 0xFF). -/
def w2Term : LogDataAccessTableEntry :=
  { magic := 255, workout_type := 0, interval_rest_time := 0,
    workout_name := [0, 0], unknown_1 := [0, 0], timestamp := 0,
    unknown_2 := [0, 0], num_splits := 0, duration_or_distance := 0,
    record_offset := 0, unknown_3 := [0, 0, 0, 0, 0, 0], record_size := 0,
    index := 0, unknown_4 := [0, 0, 0, 0] }

/-- A workout frame with the given work heart rate and trivial other
fields. -/
def hrFrame (h : Nat) : WorkoutFrame :=
  { distance := 0, work_duration := Duration.from_millis 0,
    rest_duration := none, spm := 0, work_heart_rate := some h,
    rest_heart_rate := none }

/-- A workout whose two frames carry the largest u32 heart rate: the
32-bit sum in `Workout::heart_rate` wraps around on it. -/
def c7Workout : Workout :=
  { workout_type := WorkoutType.FreeRow, serial_number := 0,
    datetime := { year := 2024, month := 6, day := 15, hour := 14, minute := 30 },
    user_id := 0, record_id := 0, total_distance := 0,
    total_work_duration := Duration.from_millis 0,
    total_rest_duration := none, spm := none,
    frames := [hrFrame 4294967295, hrFrame 4294967295] }

/-- A workout with two byte-range heart rates 80 and 90. -/
def c7Mean : Workout :=
  { workout_type := WorkoutType.FreeRow, serial_number := 0,
    datetime := { year := 2024, month := 6, day := 15, hour := 14, minute := 30 },
    user_id := 0, record_id := 0, total_distance := 0,
    total_work_duration := Duration.from_millis 0,
    total_rest_duration := none, spm := none,
    frames := [hrFrame 80, hrFrame 90] }

/-- A concrete decoded Single record with a valid packed timestamp
(2024-06-15 14:30) and no frames. -/
def c10Entry : SingleEntry :=
  { magic := 149, workout_type := WorkoutType.FreeRow, unknown_1 := [0, 0],
    serial_number := 7, timestamp := 821431838, user_id := 1,
    unknown_2 := [0, 0, 0, 0], record_id := 3, magic_2 := [0, 0, 0],
    total_duration := 123, total_distance := 500, spm := 25, split_info := 0,
    split_size := 500, unknown_3 := List.replicate 18 0, frames := [] }

/-- The workout `c10Entry` converts to. -/
def c10Workout : Workout :=
  { workout_type := WorkoutType.FreeRow, serial_number := 7,
    datetime := { year := 2024, month := 6, day := 15, hour := 14, minute := 30 },
    user_id := 1, record_id := 3, total_distance := 500,
    total_work_duration := Duration.from_millis 12300,
    total_rest_duration := none, spm := some 25, frames := [] }

/-! ## Infrastructure lemmas about the stream monad -/

theorem bind_def {α β : Type} (m : RdSt α) (f : α → RdSt β) (s : List Nat) :
    (m >>= f) s =
      match m s with
      | (RustOutcome.ok a, s1) => f a s1
      | (RustOutcome.parseError, s1) => (RustOutcome.parseError, s1)
      | (RustOutcome.ioError, s1) => (RustOutcome.ioError, s1)
      | (RustOutcome.panicked msg, s1) => (RustOutcome.panicked msg, s1) :=
  rfl

theorem pure_def {α : Type} (a : α) (s : List Nat) :
    (pure a : RdSt α) s = (RustOutcome.ok a, s) :=
  rfl

theorem bind_ok_step {α β : Type} {m : RdSt α} {f : α → RdSt β}
    {s : List Nat} {a : α} {s1 : List Nat} (h : m s = (RustOutcome.ok a, s1)) :
    (m >>= f) s = f a s1 := by
  rw [bind_def, h]

theorem bind_eq_ok {α β : Type} {m : RdSt α} {f : α → RdSt β}
    {s : List Nat} {b : β} {s2 : List Nat}
    (h : (m >>= f) s = (RustOutcome.ok b, s2)) :
    ∃ a s1, m s = (RustOutcome.ok a, s1) ∧ f a s1 = (RustOutcome.ok b, s2) := by
  rw [bind_def] at h
  rcases hms : m s with ⟨o, s1⟩
  rw [hms] at h
  cases o with
  | ok a => exact ⟨a, s1, rfl, h⟩
  | parseError => exact absurd h (by simp)
  | ioError => exact absurd h (by simp)
  | panicked msg => exact absurd h (by simp)

theorem bind_eq_panicked {α β : Type} {m : RdSt α} {f : α → RdSt β}
    {s : List Nat} {msg : String} {s2 : List Nat}
    (h : (m >>= f) s = (RustOutcome.panicked msg, s2)) :
    m s = (RustOutcome.panicked msg, s2) ∨
      ∃ a s1, m s = (RustOutcome.ok a, s1) ∧
        f a s1 = (RustOutcome.panicked msg, s2) := by
  rw [bind_def] at h
  rcases hms : m s with ⟨o, s1⟩
  rw [hms] at h
  cases o with
  | ok a => exact Or.inr ⟨a, s1, rfl, h⟩
  | parseError => exact absurd h (by simp)
  | ioError => exact absurd h (by simp)
  | panicked m2 =>
      left
      have h2 : m2 = msg ∧ s1 = s2 := by simpa using h
      rw [h2.1, h2.2]

theorem liftOutcome_eq {α : Type} {o r : RustOutcome α} {s s' : List Nat}
    (h : liftOutcome o s = (r, s')) : o = r ∧ s' = s := by
  have : (o, s) = (r, s') := h
  simp only [Prod.mk.injEq] at this
  exact ⟨this.1, this.2.symm⟩

theorem pure_eq_ok {α : Type} {a b : α} {s s' : List Nat}
    (h : (pure a : RdSt α) s = (RustOutcome.ok b, s')) : b = a ∧ s' = s := by
  have : ((RustOutcome.ok a : RustOutcome α), s) = (RustOutcome.ok b, s') := h
  simp only [Prod.mk.injEq, RustOutcome.ok.injEq] at this
  exact ⟨this.1.symm, this.2.symm⟩

theorem readU8_cons (b : Nat) (s : List Nat) :
    readU8 (b :: s) = (RustOutcome.ok b, s) := rfl

theorem readU16LE_cons (b0 b1 : Nat) (s : List Nat) :
    readU16LE (b0 :: b1 :: s) = (RustOutcome.ok (b0 + b1 * 256), s) := rfl

theorem readU16BE_cons (b0 b1 : Nat) (s : List Nat) :
    readU16BE (b0 :: b1 :: s) = (RustOutcome.ok (b0 * 256 + b1), s) := rfl

theorem readU32BE_cons (b0 b1 b2 b3 : Nat) (s : List Nat) :
    readU32BE (b0 :: b1 :: b2 :: b3 :: s) =
      (RustOutcome.ok (((b0 * 256 + b1) * 256 + b2) * 256 + b3), s) := rfl

theorem readExact_append (xs : List Nat) {n : Nat} {s : List Nat}
    (h : xs.length = n) :
    readExact n (xs ++ s) = (RustOutcome.ok xs, s) := by
  subst h
  unfold readExact
  rw [if_pos (by simp)]
  rw [List.take_left, List.drop_left]

theorem readU8_ok {s : List Nat} {b : Nat} {s' : List Nat}
    (h : readU8 s = (RustOutcome.ok b, s')) : s = b :: s' := by
  cases s with
  | nil => exact absurd h (by simp [readU8])
  | cons a t =>
      have : (RustOutcome.ok a, t) = ((RustOutcome.ok b : RustOutcome Nat), s') := h
      simp only [Prod.mk.injEq, RustOutcome.ok.injEq] at this
      rw [this.1, this.2]

theorem noPanic_readU8 : NoPanic readU8 := by
  intro s msg s' h
  cases s <;> simp [readU8] at h

theorem noPanic_readU16LE : NoPanic readU16LE := by
  intro s msg s' h
  match s with
  | [] => simp [readU16LE] at h
  | [b] => simp [readU16LE] at h
  | b0 :: b1 :: t => simp [readU16LE] at h

theorem noPanic_readU16BE : NoPanic readU16BE := by
  intro s msg s' h
  match s with
  | [] => simp [readU16BE] at h
  | [b] => simp [readU16BE] at h
  | b0 :: b1 :: t => simp [readU16BE] at h

theorem noPanic_readU32BE : NoPanic readU32BE := by
  intro s msg s' h
  match s with
  | [] => simp [readU32BE] at h
  | [b] => simp [readU32BE] at h
  | [b0, b1] => simp [readU32BE] at h
  | [b0, b1, b2] => simp [readU32BE] at h
  | b0 :: b1 :: b2 :: b3 :: t => simp [readU32BE] at h

theorem noPanic_readExact (n : Nat) : NoPanic (readExact n) := by
  intro s msg s' h
  unfold readExact at h
  split at h <;> simp at h

theorem noPanic_pure {α : Type} (a : α) : NoPanic (pure a : RdSt α) := by
  intro s msg s' h
  exact absurd h (by simp [pure_def])

theorem noPanic_bind {α β : Type} {m : RdSt α} {f : α → RdSt β}
    (hm : NoPanic m) (hf : ∀ a, NoPanic (f a)) : NoPanic (m >>= f) := by
  intro s msg s' h
  rcases bind_eq_panicked h with h1 | ⟨a, s1, _, h2⟩
  · exact hm s msg s' h1
  · exact hf a s1 msg s' h2

theorem noPanic_singleFrameRead : NoPanic SingleFrame.read := by
  unfold SingleFrame.read
  exact noPanic_bind noPanic_readU16BE (fun _ =>
    noPanic_bind noPanic_readU8 (fun _ =>
      noPanic_bind noPanic_readU8 (fun _ =>
        noPanic_bind (noPanic_readExact 28) (fun _ => noPanic_pure _))))

theorem noPanic_readFrames (n : Nat) : NoPanic (readFrames n) := by
  induction n with
  | zero => exact noPanic_pure _
  | succ k ih =>
      unfold readFrames
      exact noPanic_bind noPanic_singleFrameRead (fun _ =>
        noPanic_bind ih (fun _ => noPanic_pure _))

theorem readFrames_ok_length {n : Nat} {s : List Nat} {fs : List SingleFrame}
    {s' : List Nat} (h : readFrames n s = (RustOutcome.ok fs, s')) :
    fs.length = n := by
  induction n generalizing s fs s' with
  | zero =>
      have := pure_eq_ok (a := ([] : List SingleFrame)) h
      rw [this.1]
      rfl
  | succ k ih =>
      unfold readFrames at h
      obtain ⟨f, s1, _, h⟩ := bind_eq_ok h
      obtain ⟨fs1, s2, h2, h3⟩ := bind_eq_ok h
      have h4 := pure_eq_ok h3
      rw [h4.1]
      simp [ih h2]

theorem readExact_two (a b : Nat) (s : List Nat) :
    readExact 2 (a :: b :: s) = (RustOutcome.ok [a, b], s) :=
  readExact_append [a, b] rfl

theorem readExact_three (a b c : Nat) (s : List Nat) :
    readExact 3 (a :: b :: c :: s) = (RustOutcome.ok [a, b, c], s) :=
  readExact_append [a, b, c] rfl

theorem readExact_four (a b c d : Nat) (s : List Nat) :
    readExact 4 (a :: b :: c :: d :: s) = (RustOutcome.ok [a, b, c, d], s) :=
  readExact_append [a, b, c, d] rfl

theorem readExact_six (a b c d e f : Nat) (s : List Nat) :
    readExact 6 (a :: b :: c :: d :: e :: f :: s) =
      (RustOutcome.ok [a, b, c, d, e, f], s) :=
  readExact_append [a, b, c, d, e, f] rfl

theorem cons_of_le_length {s : List Nat} {n : Nat} (h : n + 1 ≤ s.length) :
    ∃ b t, s = b :: t ∧ n ≤ t.length := by
  cases s with
  | nil => simp at h
  | cons b t =>
      refine ⟨b, t, rfl, ?_⟩
      simp only [List.length_cons] at h
      omega

theorem LogDataAccessTableEntry.read_cons
    (b0 b1 b2 b3 b4 b5 b6 b7 b8 b9 b10 b11 b12 b13 b14 b15 : Nat)
    (b16 b17 b18 b19 b20 b21 b22 b23 b24 b25 b26 b27 b28 b29 b30 b31 : Nat)
    (t : List Nat) :
    LogDataAccessTableEntry.read
        (b0 :: b1 :: b2 :: b3 :: b4 :: b5 :: b6 :: b7 :: b8 :: b9 :: b10 ::
         b11 :: b12 :: b13 :: b14 :: b15 :: b16 :: b17 :: b18 :: b19 :: b20 ::
         b21 :: b22 :: b23 :: b24 :: b25 :: b26 :: b27 :: b28 :: b29 :: b30 ::
         b31 :: t) =
      (if b0 ≠ 240 ∧ b0 ≠ 255 ∧ b0 ≠ 112 then RustOutcome.parseError
       else RustOutcome.ok
         { magic := b0, workout_type := b1,
           interval_rest_time := b2 + b3 * 256, workout_name := [b4, b5],
           unknown_1 := [b6, b7], timestamp := b8 * 256 + b9,
           unknown_2 := [b10, b11], num_splits := b12 + b13 * 256,
           duration_or_distance := b14 + b15 * 256,
           record_offset := b16 + b17 * 256,
           unknown_3 := [b18, b19, b20, b21, b22, b23],
           record_size := b24 + b25 * 256, index := b26 + b27 * 256,
           unknown_4 := [b28, b29, b30, b31] }, t) := by
  by_cases hb : b0 ≠ 240 ∧ b0 ≠ 255 ∧ b0 ≠ 112 <;>
    simp only [LogDataAccessTableEntry.read, bind_def, readU8_cons,
      readU16LE_cons, readU16BE_cons, readExact_two, readExact_four,
      readExact_six, hb, if_true, if_false, ite_true, ite_false,
      throwParse, pure_def, not_true, not_false_iff] <;>
    first
    | rfl
    | simp [throwParse, pure_def, hb]

theorem LogDataAccessTableEntry.read_spec (s : List Nat) (h : 32 ≤ s.length) :
    (LogDataAccessTableEntry.read s).2 = s.drop 32 ∧
    ((s.getD 0 0 ≠ 240 ∧ s.getD 0 0 ≠ 255 ∧ s.getD 0 0 ≠ 112) →
      (LogDataAccessTableEntry.read s).1 = RustOutcome.parseError) ∧
    (LogDataAccessTableEntry.read s).1 ≠ RustOutcome.ioError ∧
    (∀ msg, (LogDataAccessTableEntry.read s).1 ≠ RustOutcome.panicked msg) := by
  obtain ⟨b0, t0, rfl, h0⟩ := cons_of_le_length (n := 31) h
  obtain ⟨b1, t1, rfl, h1⟩ := cons_of_le_length (n := 30) h0
  obtain ⟨b2, t2, rfl, h2⟩ := cons_of_le_length (n := 29) h1
  obtain ⟨b3, t3, rfl, h3⟩ := cons_of_le_length (n := 28) h2
  obtain ⟨b4, t4, rfl, h4⟩ := cons_of_le_length (n := 27) h3
  obtain ⟨b5, t5, rfl, h5⟩ := cons_of_le_length (n := 26) h4
  obtain ⟨b6, t6, rfl, h6⟩ := cons_of_le_length (n := 25) h5
  obtain ⟨b7, t7, rfl, h7⟩ := cons_of_le_length (n := 24) h6
  obtain ⟨b8, t8, rfl, h8⟩ := cons_of_le_length (n := 23) h7
  obtain ⟨b9, t9, rfl, h9⟩ := cons_of_le_length (n := 22) h8
  obtain ⟨b10, t10, rfl, h10⟩ := cons_of_le_length (n := 21) h9
  obtain ⟨b11, t11, rfl, h11⟩ := cons_of_le_length (n := 20) h10
  obtain ⟨b12, t12, rfl, h12⟩ := cons_of_le_length (n := 19) h11
  obtain ⟨b13, t13, rfl, h13⟩ := cons_of_le_length (n := 18) h12
  obtain ⟨b14, t14, rfl, h14⟩ := cons_of_le_length (n := 17) h13
  obtain ⟨b15, t15, rfl, h15⟩ := cons_of_le_length (n := 16) h14
  obtain ⟨b16, t16, rfl, h16⟩ := cons_of_le_length (n := 15) h15
  obtain ⟨b17, t17, rfl, h17⟩ := cons_of_le_length (n := 14) h16
  obtain ⟨b18, t18, rfl, h18⟩ := cons_of_le_length (n := 13) h17
  obtain ⟨b19, t19, rfl, h19⟩ := cons_of_le_length (n := 12) h18
  obtain ⟨b20, t20, rfl, h20⟩ := cons_of_le_length (n := 11) h19
  obtain ⟨b21, t21, rfl, h21⟩ := cons_of_le_length (n := 10) h20
  obtain ⟨b22, t22, rfl, h22⟩ := cons_of_le_length (n := 9) h21
  obtain ⟨b23, t23, rfl, h23⟩ := cons_of_le_length (n := 8) h22
  obtain ⟨b24, t24, rfl, h24⟩ := cons_of_le_length (n := 7) h23
  obtain ⟨b25, t25, rfl, h25⟩ := cons_of_le_length (n := 6) h24
  obtain ⟨b26, t26, rfl, h26⟩ := cons_of_le_length (n := 5) h25
  obtain ⟨b27, t27, rfl, h27⟩ := cons_of_le_length (n := 4) h26
  obtain ⟨b28, t28, rfl, h28⟩ := cons_of_le_length (n := 3) h27
  obtain ⟨b29, t29, rfl, h29⟩ := cons_of_le_length (n := 2) h28
  obtain ⟨b30, t30, rfl, h30⟩ := cons_of_le_length (n := 1) h29
  obtain ⟨b31, t31, rfl, h31⟩ := cons_of_le_length (n := 0) h30
  rw [LogDataAccessTableEntry.read_cons]
  refine ⟨rfl, ?_, ?_, ?_⟩
  · intro hb
    simp only [List.getD_cons_zero] at hb
    simp [hb]
  · by_cases hb : b0 ≠ 240 ∧ b0 ≠ 255 ∧ b0 ≠ 112 <;> simp [hb]
  · intro msg
    by_cases hb : b0 ≠ 240 ∧ b0 ≠ 255 ∧ b0 ≠ 112 <;> simp [hb]

theorem eq_cons_of_length {l : List Nat} {n : Nat} (h : l.length = n + 1) :
    ∃ a t, l = a :: t ∧ t.length = n := by
  cases l with
  | nil => simp at h
  | cons a t => exact ⟨a, t, rfl, by simpa using h⟩

theorem LogDataAccessTableEntry.read_encode (e : LogDataAccessTableEntry)
    (rest : List Nat) (hwf : e.wf)
    (hm : e.magic = 240 ∨ e.magic = 255 ∨ e.magic = 112) :
    LogDataAccessTableEntry.read (e.encode ++ rest) = (RustOutcome.ok e, rest) := by
  obtain ⟨m, wt, irt, wn, u1, ts, u2, ns, dd, ro, u3, rs, ix, u4⟩ := e
  obtain ⟨-, -, -, hwn, hu1, -, hu2, -, -, -, hu3, -, -, hu4⟩ := hwf
  dsimp only at hwn hu1 hu2 hu3 hu4 hm
  obtain ⟨a4, wnA, rfl, hwnA⟩ := eq_cons_of_length hwn
  obtain ⟨a5, wnB, rfl, hwnB⟩ := eq_cons_of_length hwnA
  rw [List.length_eq_zero] at hwnB
  subst hwnB
  obtain ⟨a6, u1A, rfl, hu1A⟩ := eq_cons_of_length hu1
  obtain ⟨a7, u1B, rfl, hu1B⟩ := eq_cons_of_length hu1A
  rw [List.length_eq_zero] at hu1B
  subst hu1B
  obtain ⟨a10, u2A, rfl, hu2A⟩ := eq_cons_of_length hu2
  obtain ⟨a11, u2B, rfl, hu2B⟩ := eq_cons_of_length hu2A
  rw [List.length_eq_zero] at hu2B
  subst hu2B
  obtain ⟨a18, u3A, rfl, hu3A⟩ := eq_cons_of_length hu3
  obtain ⟨a19, u3B, rfl, hu3B⟩ := eq_cons_of_length hu3A
  obtain ⟨a20, u3C, rfl, hu3C⟩ := eq_cons_of_length hu3B
  obtain ⟨a21, u3D, rfl, hu3D⟩ := eq_cons_of_length hu3C
  obtain ⟨a22, u3E, rfl, hu3E⟩ := eq_cons_of_length hu3D
  obtain ⟨a23, u3F, rfl, hu3F⟩ := eq_cons_of_length hu3E
  rw [List.length_eq_zero] at hu3F
  subst hu3F
  obtain ⟨a28, u4A, rfl, hu4A⟩ := eq_cons_of_length hu4
  obtain ⟨a29, u4B, rfl, hu4B⟩ := eq_cons_of_length hu4A
  obtain ⟨a30, u4C, rfl, hu4C⟩ := eq_cons_of_length hu4B
  obtain ⟨a31, u4D, rfl, hu4D⟩ := eq_cons_of_length hu4C
  rw [List.length_eq_zero] at hu4D
  subst hu4D
  simp only [LogDataAccessTableEntry.encode, List.cons_append, List.nil_append,
    List.append_assoc]
  rw [LogDataAccessTableEntry.read_cons]
  rcases hm with rfl | rfl | rfl
  all_goals rw [if_neg (by simp)]
  all_goals simp only [Prod.mk.injEq, RustOutcome.ok.injEq,
    LogDataAccessTableEntry.mk.injEq]
  all_goals simp only [true_and, and_true]
  all_goals omega

theorem LogDataAccessTableEntry.encode_length (e : LogDataAccessTableEntry)
    (hwf : e.wf) : e.encode.length = 32 := by
  obtain ⟨-, -, -, hwn, hu1, -, hu2, -, -, -, hu3, -, -, hu4⟩ := hwf
  simp [LogDataAccessTableEntry.encode, hwn, hu1, hu2, hu3, hu4]

theorem flatten_encode_length (es : List LogDataAccessTableEntry)
    (hes : ∀ e ∈ es, e.wf) :
    ((es.map LogDataAccessTableEntry.encode).flatten).length = 32 * es.length := by
  induction es with
  | nil => simp
  | cons e tl ih =>
      simp only [List.map_cons, List.flatten_cons, List.length_append,
        List.length_cons]
      rw [LogDataAccessTableEntry.encode_length e (hes e (List.mem_cons_self e tl)),
        ih (fun x hx => hes x (List.mem_cons_of_mem e hx))]
      ring

theorem scanAux_entries (es : List LogDataAccessTableEntry)
    (t : LogDataAccessTableEntry) (rest : List Nat)
    (hes : ∀ e ∈ es, e.wf ∧ e.magic = 240) (ht : t.wf)
    (htm : t.magic = 255 ∨ t.magic = 112) :
    ∀ fuel, es.length < fuel →
      scanAccessTableAux fuel
          ((es.map LogDataAccessTableEntry.encode).flatten ++
            (t.encode ++ rest)) =
        (RustOutcome.ok es, rest) := by
  induction es with
  | nil =>
      intro fuel hf
      obtain ⟨f, rfl⟩ : ∃ f, fuel = f + 1 := ⟨fuel - 1, by omega⟩
      have hread := LogDataAccessTableEntry.read_encode t rest ht (Or.inr htm)
      rcases htm with hmg | hmg <;>
        simp [scanAccessTableAux, hread, hmg]
  | cons e tl ih =>
      intro fuel hf
      obtain ⟨f, rfl⟩ : ∃ f, fuel = f + 1 := ⟨fuel - 1, by omega⟩
      have he := hes e (List.mem_cons_self e tl)
      have hread := LogDataAccessTableEntry.read_encode e
        ((tl.map LogDataAccessTableEntry.encode).flatten ++ (t.encode ++ rest))
        he.1 (Or.inl he.2)
      have hrec := ih (fun x hx => hes x (List.mem_cons_of_mem e hx)) f
        (by simp only [List.length_cons] at hf; omega)
      simp only [List.map_cons, List.flatten_cons, List.append_assoc]
      simp [scanAccessTableAux, hread, he.2, hrec]

theorem ceil_div_aux (ss q r : Nat) (hss : 0 < ss) (hr : r < ss) :
    (ss * q + r) / ss + (if 0 < (ss * q + r) % ss then 1 else 0) =
      (ss * q + r + ss - 1) / ss := by
  have hmod : (ss * q + r) % ss = r := by
    rw [Nat.mul_add_mod, Nat.mod_eq_of_lt hr]
  have hdiv : (ss * q + r) / ss = q := by
    rw [Nat.mul_add_div hss, Nat.div_eq_of_lt hr, Nat.add_zero]
  rw [hmod, hdiv]
  rcases Nat.eq_zero_or_pos r with rfl | hr1
  · have h1 : ss * q + 0 + ss - 1 = ss * q + (ss - 1) := by omega
    rw [h1, Nat.mul_add_div hss, Nat.div_eq_of_lt (by omega)]
    simp
  · have h2 : ss * (q + 1) = ss * q + ss := by ring
    have h1 : ss * q + r + ss - 1 = ss * (q + 1) + (r - 1) := by omega
    rw [h1, Nat.mul_add_div hss, Nat.div_eq_of_lt (by omega)]
    simp [hr1]

theorem ceil_div_formula (td ss : Nat) (hss : 0 < ss) :
    td / ss + (if 0 < td % ss then 1 else 0) = (td + ss - 1) / ss := by
  obtain ⟨q, r, hr, rfl⟩ : ∃ q r, r < ss ∧ td = ss * q + r :=
    ⟨td / ss, td % ss, Nat.mod_lt _ hss, (Nat.div_add_mod td ss).symm⟩
  exact ceil_div_aux ss q r hss hr

theorem singleRead_ok_inv {magic : Nat} {wt : WorkoutType} {s : List Nat}
    {e : SingleEntry} {s' : List Nat}
    (h : SingleEntry.read magic wt s = (RustOutcome.ok e, s')) :
    e.magic = magic ∧ e.workout_type = wt ∧
      SingleEntry.numFrames wt e.total_distance e.split_size =
        RustOutcome.ok e.frames.length := by
  unfold SingleEntry.read at h
  obtain ⟨u1, s1, _, h⟩ := bind_eq_ok h
  obtain ⟨serial, s2, _, h⟩ := bind_eq_ok h
  obtain ⟨ts, s3, _, h⟩ := bind_eq_ok h
  obtain ⟨uid, s4, _, h⟩ := bind_eq_ok h
  obtain ⟨u2, s5, _, h⟩ := bind_eq_ok h
  obtain ⟨rid, s6, _, h⟩ := bind_eq_ok h
  obtain ⟨m2, s7, _, h⟩ := bind_eq_ok h
  obtain ⟨tdur, s8, _, h⟩ := bind_eq_ok h
  obtain ⟨td, s9, _, h⟩ := bind_eq_ok h
  obtain ⟨spm, s10, _, h⟩ := bind_eq_ok h
  obtain ⟨si, s11, _, h⟩ := bind_eq_ok h
  obtain ⟨ss, s12, _, h⟩ := bind_eq_ok h
  obtain ⟨u3, s13, _, h⟩ := bind_eq_ok h
  obtain ⟨nf, s14, hnf, h⟩ := bind_eq_ok h
  obtain ⟨fs, s15, hfs, h⟩ := bind_eq_ok h
  have hp := pure_eq_ok h
  have hlift := liftOutcome_eq hnf
  have hlen := readFrames_ok_length hfs
  rw [hp.1]
  refine ⟨rfl, rfl, ?_⟩
  dsimp only
  rw [hlen, hlift.1]

theorem singleRead_panicked_inv {magic : Nat} {wt : WorkoutType} {s : List Nat}
    {msg : String} {s' : List Nat}
    (hwt : wt = WorkoutType.FreeRow ∨ wt = WorkoutType.SingleDistance)
    (h : SingleEntry.read magic wt s = (RustOutcome.panicked msg, s')) :
    msg = "attempt to divide by zero" := by
  unfold SingleEntry.read at h
  rcases bind_eq_panicked h with h1 | ⟨u1, s1, _, h⟩
  · exact absurd h1 (noPanic_readExact 2 _ _ _)
  rcases bind_eq_panicked h with h1 | ⟨serial, s2, _, h⟩
  · exact absurd h1 (noPanic_readU32BE _ _ _)
  rcases bind_eq_panicked h with h1 | ⟨ts, s3, _, h⟩
  · exact absurd h1 (noPanic_readU32BE _ _ _)
  rcases bind_eq_panicked h with h1 | ⟨uid, s4, _, h⟩
  · exact absurd h1 (noPanic_readU16BE _ _ _)
  rcases bind_eq_panicked h with h1 | ⟨u2, s5, _, h⟩
  · exact absurd h1 (noPanic_readExact 4 _ _ _)
  rcases bind_eq_panicked h with h1 | ⟨rid, s6, _, h⟩
  · exact absurd h1 (noPanic_readU8 _ _ _)
  rcases bind_eq_panicked h with h1 | ⟨m2, s7, _, h⟩
  · exact absurd h1 (noPanic_readExact 3 _ _ _)
  rcases bind_eq_panicked h with h1 | ⟨tdur, s8, _, h⟩
  · exact absurd h1 (noPanic_readU16BE _ _ _)
  rcases bind_eq_panicked h with h1 | ⟨td, s9, _, h⟩
  · exact absurd h1 (noPanic_readU32BE _ _ _)
  rcases bind_eq_panicked h with h1 | ⟨spm, s10, _, h⟩
  · exact absurd h1 (noPanic_readU8 _ _ _)
  rcases bind_eq_panicked h with h1 | ⟨si, s11, _, h⟩
  · exact absurd h1 (noPanic_readU8 _ _ _)
  rcases bind_eq_panicked h with h1 | ⟨ss, s12, _, h⟩
  · exact absurd h1 (noPanic_readU16BE _ _ _)
  rcases bind_eq_panicked h with h1 | ⟨u3, s13, _, h⟩
  · exact absurd h1 (noPanic_readExact 18 _ _ _)
  rcases bind_eq_panicked h with h1 | ⟨nf, s14, hnf, h⟩
  · have hl := liftOutcome_eq h1
    rcases hwt with rfl | rfl <;>
      · have hl1 := hl.1
        simp only [SingleEntry.numFrames] at hl1
        split at hl1
        · simp only [RustOutcome.panicked.injEq] at hl1
          exact hl1.symm
        · simp at hl1
  rcases bind_eq_panicked h with h1 | ⟨fs, s15, hfs, h⟩
  · exact absurd h1 (noPanic_readFrames nf _ _ _)
  exact absurd h (noPanic_pure _ _ _ _)

theorem processEntries_ok_iff (payload : List Nat)
    (es : List LogDataAccessTableEntry) (ws : List Workout) :
    processEntries payload es = RustOutcome.ok ws ↔
      List.Forall₂ (fun e w => decodeWorkout payload e = RustOutcome.ok w)
        es ws := by
  induction es generalizing ws with
  | nil =>
      constructor
      · intro h
        simp only [processEntries, RustOutcome.ok.injEq] at h
        rw [← h]
        exact List.Forall₂.nil
      · intro h
        cases h
        simp [processEntries]
  | cons e tl ih =>
      constructor
      · intro h
        simp only [processEntries] at h
        split at h
        · rename_i w hw
          split at h
          · rename_i ws' hws'
            simp only [RustOutcome.ok.injEq] at h
            rw [← h]
            exact List.Forall₂.cons hw ((ih ws').mp hws')
          · simp at h
          · simp at h
          · simp at h
        · simp at h
        · simp at h
        · simp at h
      · intro h
        cases h with
        | cons hrel htl =>
            simp only [processEntries, hrel, (ih _).mpr htl]

theorem forall₂_exists_of_mem_left {α β : Type} {R : α → β → Prop}
    {es : List α} {ws : List β} (h : List.Forall₂ R es ws) {e : α}
    (he : e ∈ es) : ∃ w, R e w := by
  induction h with
  | nil => simp at he
  | cons hrel htl ih =>
      rcases List.mem_cons.mp he with rfl | he2
      · exact ⟨_, hrel⟩
      · exact ih he2

theorem and_shiftLeft_shiftRight (x m k : Nat) :
    (x &&& (m <<< k)) >>> k = (x >>> k) &&& m := by
  apply Nat.eq_of_testBit_eq
  intro i
  simp only [Nat.testBit_shiftRight, Nat.testBit_and, Nat.testBit_shiftLeft]
  have h1 : k ≤ k + i := Nat.le_add_right k i
  have h2 : k + i - k = i := by omega
  simp [h1, h2]

theorem and_mask_eq (x j k : Nat) :
    (x &&& ((2 ^ j - 1) <<< k)) >>> k = x / 2 ^ k % 2 ^ j := by
  rw [and_shiftLeft_shiftRight, Nat.and_pow_two_sub_one_eq_mod,
    Nat.shiftRight_eq_div_pow]

/-! ## Claim theorems -/

/-- C1 counterexample: decoding the all-zero timestamp does fail, but by
aborting with the chrono invalid-date panic message; `decode_timestamp`
has no error-result outcome at all, so an invalid packed value surfaces
as an abnormal termination rather than as a decode failure. -/
theorem decode_timestamp_zero_aborts :
    decode_timestamp 0 = RustOutcome.panicked "invalid or out-of-range date" ∧
    (RustOutcome.panicked "invalid or out-of-range date" :
        RustOutcome NaiveDateTime) ≠ RustOutcome.parseError ∧
    (RustOutcome.panicked "invalid or out-of-range date" :
        RustOutcome NaiveDateTime) ≠ RustOutcome.ioError :=
  ⟨by decide, by decide, by decide⟩

/-- C1 (amended): for every 32-bit input, the timestamp codec extracts
year = 2000 + bits 31-25, day = bits 24-20, month = bits 19-16, hour =
bits 15-8 and minute = bits 6-0 (mask 0b1111111); it returns that
calendar date-time when the values are valid calendar values, and on
out-of-range month/day/hour/minute it aborts with the corresponding
chrono panic (an abnormal termination, not an error result); the packed
value 821431838 (year-bits 24, month 6, day 15, hour 14, minute 30)
decodes to 2024-06-15 14:30. -/
theorem decode_timestamp_bitfields (ts : Nat) (h : ts < 4294967296) :
    (chronoDateValid (2000 + ts / 33554432) (ts / 65536 % 16)
        (ts / 1048576 % 32) →
      chronoTimeValid (ts / 256 % 256) (ts % 128) →
      decode_timestamp ts = RustOutcome.ok
        { year := 2000 + ts / 33554432, month := ts / 65536 % 16,
          day := ts / 1048576 % 32, hour := ts / 256 % 256,
          minute := ts % 128 }) ∧
    (¬ chronoDateValid (2000 + ts / 33554432) (ts / 65536 % 16)
        (ts / 1048576 % 32) →
      decode_timestamp ts =
        RustOutcome.panicked "invalid or out-of-range date") ∧
    (chronoDateValid (2000 + ts / 33554432) (ts / 65536 % 16)
        (ts / 1048576 % 32) →
      ¬ chronoTimeValid (ts / 256 % 256) (ts % 128) →
      decode_timestamp ts = RustOutcome.panicked "invalid time") ∧
    decode_timestamp 821431838 = RustOutcome.ok
      { year := 2024, month := 6, day := 15, hour := 14, minute := 30 } := by
  have e1 : (ts &&& (127 <<< 25)) >>> 25 = ts / 33554432 := by
    rw [show (127 : Nat) = 2 ^ 7 - 1 by norm_num, and_mask_eq]
    norm_num
    omega
  have e2 : (ts &&& (31 <<< 20)) >>> 20 = ts / 1048576 % 32 := by
    rw [show (31 : Nat) = 2 ^ 5 - 1 by norm_num, and_mask_eq]
    norm_num
  have e3 : (ts &&& (15 <<< 16)) >>> 16 = ts / 65536 % 16 := by
    rw [show (15 : Nat) = 2 ^ 4 - 1 by norm_num, and_mask_eq]
    norm_num
  have e4 : (ts &&& (255 <<< 8)) >>> 8 = ts / 256 % 256 := by
    rw [show (255 : Nat) = 2 ^ 8 - 1 by norm_num, and_mask_eq]
    norm_num
  have e5 : ts &&& 127 = ts % 128 := by
    rw [show (127 : Nat) = 2 ^ 7 - 1 by norm_num,
      Nat.and_pow_two_sub_one_eq_mod]
  refine ⟨?_, ?_, ?_, by decide⟩
  · intro hd htime
    simp only [decode_timestamp, e1, e2, e3, e4, e5]
    rw [if_pos hd, if_pos htime]
  · intro hd
    simp only [decode_timestamp, e1, e2, e3, e4, e5]
    rw [if_neg hd]
  · intro hd hnt
    simp only [decode_timestamp, e1, e2, e3, e4, e5]
    rw [if_pos hd, if_neg hnt]

/-- C1 witness: the bit-layout theorem applied at the packed value for
2024-06-15 14:30. -/
theorem decode_timestamp_bitfields_witness :
    decode_timestamp 821431838 = RustOutcome.ok
      { year := 2024, month := 6, day := 15, hour := 14, minute := 30 } :=
  (decode_timestamp_bitfields 821431838 (by norm_num)).2.2.2

/-- C2: for every index stream made of N well-formed entries with magic
0xF0 followed by a terminator entry with magic 0xFF or 0x70 (and
anything after it), the access-table scan returns exactly those N
entries in stream order, with the terminator excluded from the result. -/
theorem scanAccessTable_entries (es : List LogDataAccessTableEntry)
    (t : LogDataAccessTableEntry) (rest : List Nat)
    (hes : ∀ e ∈ es, e.wf ∧ e.magic = 240) (ht : t.wf)
    (htm : t.magic = 255 ∨ t.magic = 112) :
    scanAccessTable
        ((es.map LogDataAccessTableEntry.encode).flatten ++
          (t.encode ++ rest)) =
      (RustOutcome.ok es, rest) := by
  unfold scanAccessTable
  apply scanAux_entries es t rest hes ht htm
  have hlen := flatten_encode_length es (fun e he => (hes e he).1)
  simp only [List.length_append, hlen,
    LogDataAccessTableEntry.encode_length t ht]
  omega

/-- C2 witness: a one-entry table followed by a 0xFF terminator scans to
exactly that entry. -/
theorem scanAccessTable_entries_witness :
    (∀ e ∈ [w2Entry], e.wf ∧ e.magic = 240) ∧ w2Term.wf ∧
    (w2Term.magic = 255 ∨ w2Term.magic = 112) ∧
    scanAccessTable
        (([w2Entry].map LogDataAccessTableEntry.encode).flatten ++
          (w2Term.encode ++ [])) =
      (RustOutcome.ok [w2Entry], []) :=
  ⟨by decide, by decide, by decide,
    scanAccessTable_entries [w2Entry] w2Term [] (by decide) (by decide)
      (by decide)⟩

/-- C3: whenever a Single record with workout type FreeRow or
SingleDistance decodes successfully, the number of trailing frames read
is exactly the ceiling of total_distance divided by split_size; in
particular the frame-count computation yields 4 for 2000 over 500 and 5
for 2100 over 500. -/
theorem singleEntry_frame_count (magic : Nat) (wt : WorkoutType)
    (s s' : List Nat) (e : SingleEntry)
    (hwt : wt = WorkoutType.FreeRow ∨ wt = WorkoutType.SingleDistance)
    (h : SingleEntry.read magic wt s = (RustOutcome.ok e, s')) :
    e.frames.length = (e.total_distance + e.split_size - 1) / e.split_size ∧
    SingleEntry.numFrames WorkoutType.FreeRow 2000 500 = RustOutcome.ok 4 ∧
    SingleEntry.numFrames WorkoutType.FreeRow 2100 500 = RustOutcome.ok 5 ∧
    SingleEntry.numFrames WorkoutType.SingleDistance 2000 500 =
      RustOutcome.ok 4 ∧
    SingleEntry.numFrames WorkoutType.SingleDistance 2100 500 =
      RustOutcome.ok 5 := by
  refine ⟨?_, by decide, by decide, by decide, by decide⟩
  obtain ⟨-, -, hnf⟩ := singleRead_ok_inv h
  rcases hwt with rfl | rfl <;>
    · simp only [SingleEntry.numFrames] at hnf
      split at hnf
      · simp at hnf
      · rename_i hss
        simp only [RustOutcome.ok.injEq] at hnf
        have hform := ceil_div_formula e.total_distance e.split_size
          (Nat.pos_of_ne_zero hss)
        rw [← hnf]
        exact hform

/-- C3 witness: the concrete stream `c3Stream` (total_distance 2,
split_size 1) decodes to `c3Entry` with two frames, the ceiling of 2/1. -/
theorem singleEntry_frame_count_witness :
    SingleEntry.read 149 WorkoutType.FreeRow c3Stream =
      (RustOutcome.ok c3Entry, []) ∧
    c3Entry.frames.length =
      (c3Entry.total_distance + c3Entry.split_size - 1) / c3Entry.split_size :=
  ⟨by decide,
    (singleEntry_frame_count 149 WorkoutType.FreeRow c3Stream [] c3Entry
      (Or.inl rfl) (by decide)).1⟩

/-- C9: for Single FreeRow and SingleDistance records the frame-count
computation divides by split_size with no zero guard: a successful
decode implies split_size was positive, the only abort the decoder can
produce is the division-by-zero abort, a concrete record with
split_size = 0 does reach that abort, and an abort is distinct from
both ordinary decode-failure results. -/
theorem single_split_zero_division (magic : Nat) (wt : WorkoutType)
    (s s' : List Nat) (o : RustOutcome SingleEntry)
    (hwt : wt = WorkoutType.FreeRow ∨ wt = WorkoutType.SingleDistance)
    (h : SingleEntry.read magic wt s = (o, s')) :
    (∀ e, o = RustOutcome.ok e → 0 < e.split_size) ∧
    (∀ msg, o = RustOutcome.panicked msg →
      msg = "attempt to divide by zero") ∧
    (SingleEntry.read 149 WorkoutType.FreeRow (List.replicate 48 0)).1 =
      RustOutcome.panicked "attempt to divide by zero" ∧
    (∀ msg, (RustOutcome.panicked msg : RustOutcome SingleEntry) ≠
        RustOutcome.parseError ∧
      (RustOutcome.panicked msg : RustOutcome SingleEntry) ≠
        RustOutcome.ioError) := by
  refine ⟨?_, ?_, by decide, fun msg => ⟨by simp, by simp⟩⟩
  · intro e he
    subst he
    obtain ⟨-, -, hnf⟩ := singleRead_ok_inv h
    rcases hwt with rfl | rfl <;>
      · simp only [SingleEntry.numFrames] at hnf
        split at hnf
        · simp at hnf
        · rename_i hss
          exact Nat.pos_of_ne_zero hss
  · intro msg hmsg
    subst hmsg
    exact singleRead_panicked_inv hwt h

/-- C9 witness: the split-size-zero theorem applied to the all-zero
48-byte record body. -/
theorem single_split_zero_division_witness :
    (SingleEntry.read 149 WorkoutType.FreeRow (List.replicate 48 0)).1 =
      RustOutcome.panicked "attempt to divide by zero" :=
  (single_split_zero_division 149 WorkoutType.FreeRow (List.replicate 48 0)
    (SingleEntry.read 149 WorkoutType.FreeRow (List.replicate 48 0)).2
    (SingleEntry.read 149 WorkoutType.FreeRow (List.replicate 48 0)).1
    (Or.inl rfl) rfl).2.2.1

/-- C4: log retrieval is all-or-nothing: when the index stream scans to
a list of entries, a result list is produced exactly when every entry
decodes, in which case there is one workout per entry in index order
(Forall₂ pairs them positionally); if any entry fails to decode, no
workout list is returned at all. -/
theorem workouts_all_or_nothing (idx payload : List Nat)
    (entries : List LogDataAccessTableEntry)
    (hscan : (scanAccessTable idx).1 = RustOutcome.ok entries) :
    (∀ ws, Drive.workouts idx payload = RustOutcome.ok ws ↔
      List.Forall₂ (fun e w => decodeWorkout payload e = RustOutcome.ok w)
        entries ws) ∧
    ((∃ e ∈ entries, ∀ w, decodeWorkout payload e ≠ RustOutcome.ok w) →
      ∀ ws, Drive.workouts idx payload ≠ RustOutcome.ok ws) := by
  have hmain : ∀ ws, Drive.workouts idx payload = RustOutcome.ok ws ↔
      List.Forall₂ (fun e w => decodeWorkout payload e = RustOutcome.ok w)
        entries ws := by
    intro ws
    unfold Drive.workouts
    rw [hscan]
    exact processEntries_ok_iff payload entries ws
  refine ⟨hmain, ?_⟩
  rintro ⟨e, he, hfail⟩ ws hok
  obtain ⟨w, hw⟩ := forall₂_exists_of_mem_left ((hmain ws).mp hok) he
  exact hfail w hw

/-- C4 witness: an index stream holding only a terminator scans to the
empty entry list and retrieval returns the empty workout list. -/
theorem workouts_all_or_nothing_witness :
    (scanAccessTable (LogDataAccessTableEntry.encode w2Term)).1 =
      RustOutcome.ok [] ∧
    Drive.workouts (LogDataAccessTableEntry.encode w2Term) [] =
      RustOutcome.ok [] := by
  have hscan : (scanAccessTable (LogDataAccessTableEntry.encode w2Term)).1 =
      RustOutcome.ok [] := by decide
  exact ⟨hscan,
    ((workouts_all_or_nothing (LogDataAccessTableEntry.encode w2Term) []
      [] hscan).1 []).mpr List.Forall₂.nil⟩

/-- C5 counterexample: decoding a storage record with type tag 0x06
ends in the todo abort carrying "not yet implemented"; this is an
abnormal termination, not an error result (it differs from both error
outcomes), so the claim that an error result is returned is false. -/
theorem fixedInterval_panic_counterexample :
    (LogDataStorageEntry.read [240, 6]).1 =
      RustOutcome.panicked "not yet implemented" ∧
    (RustOutcome.panicked "not yet implemented" :
        RustOutcome LogDataStorageEntry) ≠ RustOutcome.parseError ∧
    (RustOutcome.panicked "not yet implemented" :
        RustOutcome LogDataStorageEntry) ≠ RustOutcome.ioError :=
  ⟨by decide, by decide, by decide⟩

/-- C5 (amended): for workout types 0x06, 0x07 and 0x08 the storage
decoder aborts with the explicit "not yet implemented" todo panic,
which is distinct from the parse-error result raised for unrecognized
type tags; it is an abort, not an error result. -/
theorem unimplemented_variant_panics (m t : Nat) (rest : List Nat) :
    ((t = 6 ∨ t = 7 ∨ t = 8) →
      (LogDataStorageEntry.read (m :: t :: rest)).1 =
        RustOutcome.panicked "not yet implemented") ∧
    (t ≠ 1 → t ≠ 3 → t ≠ 5 → t ≠ 6 → t ≠ 7 → t ≠ 8 → t ≠ 10 →
      (LogDataStorageEntry.read (m :: t :: rest)).1 =
        RustOutcome.parseError) := by
  constructor
  · rintro (rfl | rfl | rfl) <;>
      simp [LogDataStorageEntry.read, bind_def, readU8_cons,
        WorkoutType.tryFrom, liftOutcome, FixedIntervalEntry.read,
        VariableIntervalEntry.read]
  · intro h1 h3 h5 h6 h7 h8 h10
    simp only [LogDataStorageEntry.read, bind_def, readU8_cons]
    simp [throwParse]

/-- C5 witness: the amended theorem applied at type tags 6 and 2. -/
theorem unimplemented_variant_panics_witness :
    (LogDataStorageEntry.read (240 :: 6 :: [])).1 =
      RustOutcome.panicked "not yet implemented" ∧
    (LogDataStorageEntry.read (240 :: 2 :: [])).1 =
      RustOutcome.parseError :=
  ⟨(unimplemented_variant_panics 240 6 []).1 (Or.inl rfl),
    (unimplemented_variant_panics 240 2 []).2 (by decide) (by decide)
      (by decide) (by decide) (by decide) (by decide) (by decide)⟩

/-- C6: an index entry whose magic byte is outside the set 0xF0, 0xFF,
0x70 is a decode failure (a parse error), and the access-table scan
over such a stream fails with that parse error rather than skipping
the entry. -/
theorem bad_magic_parse_error (b : Nat) (rest : List Nat)
    (hb : b ≠ 240 ∧ b ≠ 255 ∧ b ≠ 112) (hlen : 31 ≤ rest.length) :
    (LogDataAccessTableEntry.read (b :: rest)).1 = RustOutcome.parseError ∧
    (scanAccessTable (b :: rest)).1 = RustOutcome.parseError := by
  have hs : 32 ≤ (b :: rest).length := by
    simp only [List.length_cons]
    omega
  obtain ⟨h2, hcond, -, -⟩ := LogDataAccessTableEntry.read_spec (b :: rest) hs
  have h1 : (LogDataAccessTableEntry.read (b :: rest)).1 =
      RustOutcome.parseError := hcond (by simpa using hb)
  refine ⟨h1, ?_⟩
  have hpair : LogDataAccessTableEntry.read (b :: rest) =
      (RustOutcome.parseError, (b :: rest).drop 32) := Prod.ext h1 h2
  simp [scanAccessTable, scanAccessTableAux, hpair]

/-- C6 witness: the bad-magic theorem applied to a 32-byte record whose
magic byte is zero. -/
theorem bad_magic_parse_error_witness :
    (LogDataAccessTableEntry.read (0 :: List.replicate 31 0)).1 =
      RustOutcome.parseError :=
  (bad_magic_parse_error 0 (List.replicate 31 0) (by decide) (by decide)).1

/-- C7 counterexample: a workout with two present heart rates of
4294967295 (valid u32 values): the 32-bit sum wraps around, so the
result is present but not the truncating mean of the heart rates,
which would be 4294967295. -/
theorem heart_rate_wrap_counterexample :
    Workout.heart_rate c7Workout = some 2147483647 ∧
    (4294967295 + 4294967295) / 2 = 4294967295 ∧
    (2147483647 : Nat) ≠ 4294967295 :=
  ⟨by decide, by decide, by decide⟩

/-- C7 (amended): average heart rate is absent exactly when the frame
list is empty or some frame heart rate is absent; when all are present
it is the truncating integer mean computed in wrapping 32-bit
arithmetic, which equals the exact truncating mean whenever the sum of
the heart rates is below 2^32 and there are fewer than 2^32 frames
(always the case for decoder-produced frames, whose heart rates are
byte values); the frame conversion decodes heart-rate byte 0 as
absent and any positive byte as present. -/
theorem heart_rate_spec (w : Workout) (fr : SingleFrame)
    (hsum : (w.frames.map (fun f => f.work_heart_rate.getD 0)).sum <
      4294967296)
    (hlen : w.frames.length < 4294967296) :
    (Workout.heart_rate w = none ↔
      (w.frames = [] ∨ ∃ f ∈ w.frames, f.work_heart_rate = none)) ∧
    (w.frames ≠ [] → (∀ f ∈ w.frames, f.work_heart_rate ≠ none) →
      Workout.heart_rate w = some
        ((w.frames.map (fun f => f.work_heart_rate.getD 0)).sum /
          w.frames.length)) ∧
    ((SingleFrame.intoFrame fr).work_heart_rate =
      if 0 < fr.heart_rate then some fr.heart_rate else none) ∧
    (fr.heart_rate = 0 →
      (SingleFrame.intoFrame fr).work_heart_rate = none) := by
  refine ⟨?_, ?_, rfl, ?_⟩
  · unfold Workout.heart_rate
    by_cases h0 : w.frames.length = 0
    · simp [h0, List.length_eq_zero.mp h0]
    · rw [if_neg h0]
      by_cases hany : w.frames.any (fun f => f.work_heart_rate.isNone)
      · rw [if_pos hany]
        simp only [List.any_eq_true, Option.isNone_iff_eq_none] at hany
        simp only [true_iff]
        exact Or.inr hany
      · rw [if_neg hany]
        simp only [List.any_eq_true, Option.isNone_iff_eq_none] at hany
        constructor
        · intro habs
          exact absurd habs (by simp)
        · rintro (hnil | ⟨f, hf, hfr⟩)
          · exact absurd (congrArg List.length hnil) (by simpa using h0)
          · exact absurd ⟨f, hf, hfr⟩ hany
  · intro hne hall
    unfold Workout.heart_rate
    rw [if_neg (fun hx => hne (List.length_eq_zero.mp hx))]
    rw [if_neg (by
      simp only [List.any_eq_true, Option.isNone_iff_eq_none]
      rintro ⟨f, hf, hfr⟩
      exact hall f hf hfr)]
    rw [Nat.mod_eq_of_lt hsum, Nat.mod_eq_of_lt hlen]
  · intro hz
    simp [SingleFrame.intoFrame, hz]

/-- C7 witness: the amended theorem applied to a workout with heart
rates 80 and 90 gives the mean 85. -/
theorem heart_rate_spec_witness : Workout.heart_rate c7Mean = some 85 := by
  have h := (heart_rate_spec c7Mean zeroFrame (by decide) (by decide)).2.1
    (by decide) (by decide)
  rw [h]
  decide

/-- C8 counterexample: reading one index entry from a 36-byte stream
with a valid magic byte leaves four bytes unread: the record is 32
bytes, not 36, so reading does not consume exactly 36 bytes. -/
theorem index_entry_not_36_bytes :
    (LogDataAccessTableEntry.read (240 :: List.replicate 35 0)).2 =
      [0, 0, 0, 0] ∧
    ([0, 0, 0, 0] : List Nat) ≠ [] :=
  ⟨by decide, by decide⟩

/-- C8 (amended): every index entry is a fixed-size 32-byte record:
whenever at least 32 bytes are available, reading one entry consumes
exactly 32 bytes, whether the read succeeds or fails the magic
validation (an io failure is impossible then). -/
theorem index_entry_32_bytes (s : List Nat) (h : 32 ≤ s.length) :
    (LogDataAccessTableEntry.read s).2 = s.drop 32 ∧
    (LogDataAccessTableEntry.read s).1 ≠ RustOutcome.ioError := by
  obtain ⟨h2, -, hio, -⟩ := LogDataAccessTableEntry.read_spec s h
  exact ⟨h2, hio⟩

/-- C8 witness: the 32-byte consumption theorem applied to a concrete
32-byte stream. -/
theorem index_entry_32_bytes_witness :
    (LogDataAccessTableEntry.read (240 :: List.replicate 31 0)).2 =
      (240 :: List.replicate 31 0 : List Nat).drop 32 :=
  (index_entry_32_bytes (240 :: List.replicate 31 0) (by decide)).1

/-- C10: converting a decoded Single record to a Workout multiplies the
16-bit total duration by 100 milliseconds (tenths of a second), and
converting a frame gives it a work duration of its 16-bit value times
100 milliseconds. -/
theorem single_durations_tenths (e : SingleEntry) (w : Workout)
    (fr : SingleFrame)
    (h : SingleEntry.intoWorkout e = RustOutcome.ok w) :
    w.total_work_duration = Duration.from_millis (e.total_duration * 100) ∧
    (SingleFrame.intoFrame fr).work_duration =
      Duration.from_millis (fr.duration_or_distance * 100) := by
  refine ⟨?_, rfl⟩
  unfold SingleEntry.intoWorkout at h
  split at h
  · split at h
    · simp only [RustOutcome.ok.injEq] at h
      rw [← h]
    · simp at h
    · simp at h
    · simp at h
  · simp at h
  · simp at h
  · simp at h

/-- C10 witness: the duration theorem applied to the concrete record
`c10Entry` (total_duration 123, hence 12300 milliseconds). -/
theorem single_durations_tenths_witness :
    SingleEntry.intoWorkout c10Entry = RustOutcome.ok c10Workout ∧
    c10Workout.total_work_duration =
      Duration.from_millis (c10Entry.total_duration * 100) :=
  ⟨by decide,
    (single_durations_tenths c10Entry c10Workout zeroFrame (by decide)).1⟩
